import Mathlib

/-!
Verification of the Ready2Learn client core against its specification.

The TypeScript source is shallowly embedded: byte buffers become `List Nat`
(each entry a byte value), JS strings become `List Char`, JS numbers used as
integers become `Nat`/`Int` with explicit truncation where `DataView` writes
fixed-width integers, fallible asynchronous operations become functions into
`Except`, and React state updates become pure state-transforming functions.
-/

namespace Ready2Learn

/-! ### Little-endian integer encodings used by the WAV header

`DataView.setUint16`/`setUint32` with `littleEndian = true` store the low
bytes first, truncating the value to 16 resp. 32 bits. -/

/-- Bytes written by `view.setUint16(off, n, true)`. -/
def u16le (n : Nat) : List Nat :=
  [n % 256, n / 256 % 256]

/-- Bytes written by `view.setUint32(off, n, true)`. -/
def u32le (n : Nat) : List Nat :=
  [n % 256, n / 256 % 256, n / 65536 % 256, n / 16777216 % 256]

/-- Bytes written by `writeString(view, off, 'RIFF')` (char codes). -/
def riffBytes : List Nat := [82, 73, 70, 70]

/-- Bytes written by `writeString(view, off, 'WAVE')`. -/
def waveBytes : List Nat := [87, 65, 86, 69]

/-- Bytes written by `writeString(view, off, 'fmt ')`. -/
def fmtBytes : List Nat := [102, 109, 116, 32]

/-- Bytes written by `writeString(view, off, 'data')`. -/
def dataBytes : List Nat := [100, 97, 116, 97]

/-- The 44-byte RIFF/WAVE header that `pcmToWav` builds in
`src/services/geminiService.ts`, laid out field by field at the offsets the
code writes: tag at 0, chunk size at 4, tags at 8 and 12, subchunk size 16 at
16, audio format 1 at 20, channel count 1 at 22, sample rate at 24, byte rate
`(sampleRate * numChannels * bitsPerSample) / 8` at 28, block alignment
`(numChannels * bitsPerSample) / 8` at 32, bits-per-sample 16 at 34, data tag
at 36 and data size at 40. -/
def wavHeader (dataSize sampleRate : Nat) : List Nat :=
  riffBytes ++ u32le (36 + dataSize) ++ waveBytes ++ fmtBytes ++
    u32le 16 ++ u16le 1 ++ u16le 1 ++ u32le sampleRate ++
    u32le (sampleRate * 1 * 16 / 8) ++ u16le (1 * 16 / 8) ++ u16le 16 ++
    dataBytes ++ u32le dataSize

/-- `pcmToWav` (src/services/geminiService.ts): prepend the 44-byte header to
the PCM payload.  Storing a value into a `Uint8Array` truncates it to a byte,
hence the `% 256` on the payload. -/
def pcmToWav (pcmData : List Nat) (sampleRate : Nat) : List Nat :=
  wavHeader pcmData.length sampleRate ++ pcmData.map (fun b => b % 256)

/-- Read `k` bytes at byte offset `off`, little endian, from a byte buffer. -/
def readLE (l : List Nat) (off k : Nat) : Nat :=
  ((l.drop off).take k).foldr (fun b acc => b % 256 + acc * 256) 0

/-- A WAV decoder that recovers the PCM payload (everything after the 44-byte
header) and the declared sample rate (the 32-bit little-endian field at
offset 24). -/
def wavDecode (l : List Nat) : List Nat × Nat :=
  (l.drop 44, readLE l 24 4)

theorem map_mod256_eq_self (B : List Nat) (hB : ∀ b ∈ B, b < 256) :
    B.map (fun b => b % 256) = B := by
  induction B with
  | nil => rfl
  | cons b bs ih =>
      simp only [List.map_cons, List.cons.injEq]
      exact ⟨Nat.mod_eq_of_lt (hB b (by simp)),
        ih fun x hx => hB x (by simp [hx])⟩

theorem wavHeader_length (d s : Nat) : (wavHeader d s).length = 44 := by
  simp [wavHeader, riffBytes, waveBytes, fmtBytes, dataBytes, u16le, u32le]

/-- C1: `pcmToWav` produces exactly 44 header bytes followed by the PCM
payload unchanged, with RIFF chunk size `36 + |B|` at offset 4, channel
count 1 at offset 22, sample rate `R` at offset 24, byte rate `R * 2` at
offset 28, block alignment 2 at offset 32, bits-per-sample 16 at offset 34
and data-chunk size `|B|` at offset 40, all little endian; decoding the
container recovers exactly `B` and `R`. -/
theorem pcmToWav_spec (B : List Nat) (R : Nat)
    (hbytes : ∀ b ∈ B, b < 256)
    (hsize : 36 + B.length < 4294967296)
    (hrate : R * 2 < 4294967296) :
    (pcmToWav B R).length = 44 + B.length ∧
    (pcmToWav B R).drop 44 = B ∧
    readLE (pcmToWav B R) 4 4 = 36 + B.length ∧
    readLE (pcmToWav B R) 22 2 = 1 ∧
    readLE (pcmToWav B R) 24 4 = R ∧
    readLE (pcmToWav B R) 28 4 = R * 2 ∧
    readLE (pcmToWav B R) 32 2 = 2 ∧
    readLE (pcmToWav B R) 34 2 = 16 ∧
    readLE (pcmToWav B R) 40 4 = B.length ∧
    wavDecode (pcmToWav B R) = (B, R) := by
  have hdrop : (pcmToWav B R).drop 44 = B := by
    have h44 : (wavHeader B.length R).length = 44 := wavHeader_length _ _
    rw [pcmToWav, ← h44, List.drop_left, map_mod256_eq_self B hbytes]
  have hrd : ∀ off k,
      readLE (pcmToWav B R) off k =
        readLE (wavHeader B.length R ++ B.map (fun b => b % 256)) off k :=
    fun _ _ => rfl
  have hR24 : readLE (pcmToWav B R) 24 4 = R := by
    rw [hrd]
    simp only [wavHeader, riffBytes, waveBytes, fmtBytes, dataBytes, u16le,
      u32le, readLE, List.cons_append, List.nil_append, List.append_assoc,
      List.drop_succ_cons, List.drop_zero, List.take_succ_cons,
      List.take_zero, List.foldr_cons, List.foldr_nil]
    omega
  refine ⟨?_, hdrop, ?_, ?_, hR24, ?_, ?_, ?_, ?_, ?_⟩
  · simp [pcmToWav, wavHeader_length]
  · rw [hrd]
    simp only [wavHeader, riffBytes, waveBytes, fmtBytes, dataBytes, u16le,
      u32le, readLE, List.cons_append, List.nil_append, List.append_assoc,
      List.drop_succ_cons, List.drop_zero, List.take_succ_cons,
      List.take_zero, List.foldr_cons, List.foldr_nil]
    omega
  · rw [hrd]
    simp only [wavHeader, riffBytes, waveBytes, fmtBytes, dataBytes, u16le,
      u32le, readLE, List.cons_append, List.nil_append, List.append_assoc,
      List.drop_succ_cons, List.drop_zero, List.take_succ_cons,
      List.take_zero, List.foldr_cons, List.foldr_nil]
  · rw [hrd]
    simp only [wavHeader, riffBytes, waveBytes, fmtBytes, dataBytes, u16le,
      u32le, readLE, List.cons_append, List.nil_append, List.append_assoc,
      List.drop_succ_cons, List.drop_zero, List.take_succ_cons,
      List.take_zero, List.foldr_cons, List.foldr_nil]
    omega
  · rw [hrd]
    simp only [wavHeader, riffBytes, waveBytes, fmtBytes, dataBytes, u16le,
      u32le, readLE, List.cons_append, List.nil_append, List.append_assoc,
      List.drop_succ_cons, List.drop_zero, List.take_succ_cons,
      List.take_zero, List.foldr_cons, List.foldr_nil]
  · rw [hrd]
    simp only [wavHeader, riffBytes, waveBytes, fmtBytes, dataBytes, u16le,
      u32le, readLE, List.cons_append, List.nil_append, List.append_assoc,
      List.drop_succ_cons, List.drop_zero, List.take_succ_cons,
      List.take_zero, List.foldr_cons, List.foldr_nil]
  · rw [hrd]
    simp only [wavHeader, riffBytes, waveBytes, fmtBytes, dataBytes, u16le,
      u32le, readLE, List.cons_append, List.nil_append, List.append_assoc,
      List.drop_succ_cons, List.drop_zero, List.take_succ_cons,
      List.take_zero, List.foldr_cons, List.foldr_nil]
    omega
  · rw [wavDecode, hdrop, hR24]

/-- Witness for C1 at the concrete buffer `[7, 200]` and rate 24000. -/
theorem pcmToWav_spec_witness :
    (∀ b ∈ ([7, 200] : List Nat), b < 256) ∧
    36 + ([7, 200] : List Nat).length < 4294967296 ∧
    24000 * 2 < 4294967296 ∧
    wavDecode (pcmToWav [7, 200] 24000) = ([7, 200], 24000) ∧
    (pcmToWav [7, 200] 24000).length = 44 + ([7, 200] : List Nat).length :=
  ⟨by decide, by decide, by decide,
    (pcmToWav_spec [7, 200] 24000 (by decide) (by decide) (by decide)).2.2.2.2.2.2.2.2.2,
    (pcmToWav_spec [7, 200] 24000 (by decide) (by decide) (by decide)).1⟩

/-! ### Course data model (src/unnamed/part_000, types.ts) -/

/-- `Topic` record from types.ts; JS strings are embedded as `List Char`. -/
structure Topic where
  id : List Char
  title : List Char
  description : List Char
  isCompleted : Bool
  isLocked : Bool
deriving DecidableEq

/-- `Chapter` record from types.ts. -/
structure Chapter where
  id : List Char
  title : List Char
  topics : List Topic
deriving DecidableEq

/-- `CourseStructure` record from types.ts. -/
structure CourseStructure where
  title : List Char
  summary : List Char
  chapters : List Chapter
deriving DecidableEq

/-- A topic of the raw (pre-id-assignment) service response parsed by
`analyzePdfStructure`: `{ title: string, description: string }`. -/
structure RawTopic where
  title : List Char
  description : List Char
deriving DecidableEq

/-- A chapter of the raw service response: `{ title, topics }`. -/
structure RawChapter where
  title : List Char
  topics : List RawTopic
deriving DecidableEq

/-- The raw service response: `{ title, summary, chapters }`. -/
structure RawCourse where
  title : List Char
  summary : List Char
  chapters : List RawChapter
deriving DecidableEq

/-! ### Decimal rendering of counters, as in the template literals
`` `ch-${cIdx}` `` and `` `topic-${topicCounter++}` ``.  Fuel-based so that
it reduces in the kernel. -/

/-- Decimal digits of `n`, most significant first, given enough fuel. -/
def natCharsGo : Nat → Nat → List Char
  | 0, _ => []
  | fuel + 1, n =>
      if n < 10 then [Nat.digitChar n]
      else natCharsGo fuel (n / 10) ++ [Nat.digitChar (n % 10)]

/-- Decimal rendering of a natural number (`n + 1` fuel always suffices). -/
def natChars (n : Nat) : List Char := natCharsGo (n + 1) n

/-- The id string `` `topic-${n}` ``. -/
def topicId (n : Nat) : List Char := "topic-".toList ++ natChars n

/-- The id string `` `ch-${n}` ``. -/
def chapterId (n : Nat) : List Char := "ch-".toList ++ natChars n

theorem digitChar_val (n : Nat) (h : n < 10) : (Nat.digitChar n).toNat - 48 = n := by
  interval_cases n <;> decide

theorem natCharsGo_foldl (fuel : Nat) :
    ∀ n a, n < fuel →
      (natCharsGo fuel n).foldl (fun acc c => acc * 10 + (c.toNat - 48)) a =
        a * 10 ^ (natCharsGo fuel n).length + n := by
  induction fuel with
  | zero => intro n a hn; omega
  | succ fuel ih =>
      intro n a hn
      by_cases h : n < 10
      · simp [natCharsGo, h, digitChar_val n h]
      · have hdiv : n / 10 < fuel := by omega
        simp only [natCharsGo, if_neg h, List.foldl_append, List.length_append,
          List.foldl_cons, List.foldl_nil, List.length_cons, List.length_nil]
        rw [ih (n / 10) a hdiv, digitChar_val (n % 10) (by omega)]
        rw [Nat.zero_add, pow_succ]
        have hmod : n / 10 * 10 + n % 10 = n := by omega
        ring_nf
        omega

theorem natChars_val (n : Nat) :
    (natChars n).foldl (fun acc c => acc * 10 + (c.toNat - 48)) 0 = n := by
  have := natCharsGo_foldl (n + 1) n 0 (by omega)
  simpa [natChars] using this

theorem natChars_inj {m n : Nat} (h : natChars m = natChars n) : m = n := by
  have hm := natChars_val m
  have hn := natChars_val n
  rw [h] at hm
  omega

theorem topicId_inj {m n : Nat} (h : topicId m = topicId n) : m = n :=
  natChars_inj (List.append_cancel_left h)

theorem chapterId_inj {m n : Nat} (h : chapterId m = chapterId n) : m = n :=
  natChars_inj (List.append_cancel_left h)

/-! ### `analyzePdfStructure` id assignment and lock-state initialisation
(src/services/geminiService.ts, the "Parse JSON and add IDs" block).

The JS code maps over `rawData.chapters` with a chapter index `cIdx` and a
mutable global `topicCounter`; the counter is threaded explicitly here. -/

/-- The inner `ch.topics.map` with chapter index `cIdx`, topic index `tIdx`
and the global topic counter:
`isFirst = cIdx === 0 && tIdx === 0`, `isLocked: !isFirst`. -/
def mkTopics (counter cIdx tIdx : Nat) : List RawTopic → List Topic
  | [] => []
  | t :: ts =>
      { id := topicId counter
        title := t.title
        description := t.description
        isCompleted := false
        isLocked := !(cIdx == 0 && tIdx == 0) } :: mkTopics (counter + 1) cIdx (tIdx + 1) ts

/-- The outer `rawData.chapters.map`; each chapter advances the global topic
counter by its own topic count. -/
def mkChapters (counter cIdx : Nat) : List RawChapter → List Chapter
  | [] => []
  | ch :: rest =>
      { id := chapterId cIdx
        title := ch.title
        topics := mkTopics counter cIdx 0 ch.topics } ::
        mkChapters (counter + ch.topics.length) (cIdx + 1) rest

/-- The pure post-processing of `analyzePdfStructure`: spread the raw data
and replace `chapters` by the id-annotated chapters. -/
def analyzePdfStructure (raw : RawCourse) : CourseStructure :=
  { title := raw.title, summary := raw.summary, chapters := mkChapters 0 0 raw.chapters }

/-- `courseStructure.chapters.flatMap(ch => ch.topics)` — the flattened
chapter-then-topic order used by `handleQuizFinish`. -/
def flatTopics (S : CourseStructure) : List Topic :=
  S.chapters.flatMap fun ch => ch.topics

/-- Flattening of the raw chapters, for stating `analyzePdfStructure`. -/
def rawFlat (chs : List RawChapter) : List RawTopic :=
  chs.flatMap fun ch => ch.topics

/-! ### `handleQuizFinish` (the App component, src/unnamed/part_003) -/

/-- Index of the first element satisfying `p`, if any. -/
def findIdxO {α : Type} (p : α → Bool) : List α → Option Nat
  | [] => none
  | x :: xs => if p x then some 0 else (findIdxO p xs).map (· + 1)

/-- JS `Array.prototype.findIndex`: the index of the first match, `-1` when
there is none. -/
def jsFindIndex {α : Type} (p : α → Bool) (l : List α) : Int :=
  match findIdxO p l with
  | some i => (i : Int)
  | none => -1

/-- `handleQuizFinish(passed)` with the current course structure and the
current topic's id: on `passed`, flatten the topics, find the current index
(`findIndex`, `-1` when absent), take `allTopics[currentIdx + 1]` as the next
topic, and rebuild every chapter marking the current topic completed and
unlocking the next topic if it exists; otherwise return the state
unchanged. -/
def handleQuizFinish (passed : Bool) (S : CourseStructure) (tid : List Char) :
    CourseStructure :=
  if passed then
    let allTopics := flatTopics S
    let currentIdx := jsFindIndex (fun t => t.id == tid) allTopics
    let nextTopic := allTopics[(currentIdx + 1).toNat]?
    { S with
      chapters := S.chapters.map fun ch =>
        { ch with
          topics := ch.topics.map fun t =>
            if t.id == tid then { t with isCompleted := true }
            else
              match nextTopic with
              | some nt => if t.id == nt.id then { t with isLocked := false } else t
              | none => t } }
  else S

/-- The per-topic update `handleQuizFinish` applies on a pass, as a named
function of the flattened topic list. -/
def advanceTopic (F : List Topic) (tid : List Char) (t : Topic) : Topic :=
  if t.id == tid then { t with isCompleted := true }
  else
    match F[(jsFindIndex (fun t => t.id == tid) F + 1).toNat]? with
    | some nt => if t.id == nt.id then { t with isLocked := false } else t
    | none => t

theorem handleQuizFinish_true_eq (S : CourseStructure) (tid : List Char) :
    handleQuizFinish true S tid =
      { S with
        chapters := S.chapters.map fun ch =>
          { ch with topics := ch.topics.map (advanceTopic (flatTopics S) tid) } } := by
  unfold handleQuizFinish advanceTopic
  cases h : (flatTopics S)[(jsFindIndex (fun t => t.id == tid) (flatTopics S) + 1).toNat]? <;>
    simp [h]

theorem flatMap_topics_map (chs : List Chapter) (f : Topic → Topic) :
    ((chs.map fun ch => { ch with topics := ch.topics.map f }).flatMap fun ch => ch.topics) =
      (chs.flatMap fun ch => ch.topics).map f := by
  induction chs with
  | nil => rfl
  | cons ch rest ih => simp [ih]

theorem flatTopics_handleQuizFinish_true (S : CourseStructure) (tid : List Char) :
    flatTopics (handleQuizFinish true S tid) =
      (flatTopics S).map (advanceTopic (flatTopics S) tid) := by
  rw [handleQuizFinish_true_eq]
  simp only [flatTopics]
  exact flatMap_topics_map S.chapters _

theorem findIdxO_eq_none {α : Type} (p : α → Bool) (l : List α)
    (h : ∀ x ∈ l, p x = false) : findIdxO p l = none := by
  induction l with
  | nil => rfl
  | cons a l ih =>
      simp [findIdxO, h a (List.mem_cons_self a l),
        ih fun x hx => h x (List.mem_cons_of_mem a hx)]

theorem findIdxO_key (F : List Topic) (i : Nat) (hi : i < F.length)
    (hnd : (F.map Topic.id).Nodup) :
    findIdxO (fun t => t.id == F[i].id) F = some i := by
  induction F generalizing i with
  | nil => simp at hi
  | cons a F ih =>
      cases i with
      | zero => simp [findIdxO]
      | succ i =>
          have hlen : i < F.length := by simpa using hi
          have hmem : F[i].id ∈ F.map Topic.id :=
            List.mem_map_of_mem Topic.id (F.getElem_mem hlen)
          have hnd' : (a.id :: F.map Topic.id).Nodup := by simpa using hnd
          have hne : (a.id == F[i].id) = false := by
            refine beq_eq_false_iff_ne.mpr fun hEq => ?_
            exact (List.nodup_cons.mp hnd').1 (hEq ▸ hmem)
          have htail := ih i hlen (List.nodup_cons.mp hnd').2
          simp only [List.getElem_cons_succ]
          simp [findIdxO, hne, htail]

theorem nodup_id_getElem_inj (F : List Topic) (hnd : (F.map Topic.id).Nodup)
    {a b : Nat} (ha : a < F.length) (hb : b < F.length)
    (h : F[a].id = F[b].id) : a = b := by
  have ha2 : a < (F.map Topic.id).length := by simpa using ha
  have hb2 : b < (F.map Topic.id).length := by simpa using hb
  have h2 : (F.map Topic.id)[a] = (F.map Topic.id)[b] := by simpa using h
  exact (hnd.getElem_inj_iff).mp h2

/-- A three-topic, two-chapter course used as a concrete witness input. -/
def sampleCourse : CourseStructure :=
  { title := "T".toList
    summary := "S".toList
    chapters :=
      [ { id := "ch-0".toList
          title := "A".toList
          topics :=
            [ { id := "topic-0".toList, title := "t0".toList,
                description := "d0".toList, isCompleted := false, isLocked := false },
              { id := "topic-1".toList, title := "t1".toList,
                description := "d1".toList, isCompleted := false, isLocked := true } ] },
        { id := "ch-1".toList
          title := "B".toList
          topics :=
            [ { id := "topic-2".toList, title := "t2".toList,
                description := "d2".toList, isCompleted := false, isLocked := true } ] } ] }

/-- C2: advancing with `passed = true` on a topic id occurring at flattened
position `i` marks exactly that topic completed, clears the locked flag of
the topic at position `i + 1` when it exists, and changes nothing else; in
particular for the last topic no locked flag changes. -/
theorem handleQuizFinish_pass_spec (S : CourseStructure) (i j : Nat) (tid : List Char)
    (htid : ((flatTopics S).map Topic.id)[i]? = some tid)
    (hnd : ((flatTopics S).map Topic.id).Nodup) :
    (flatTopics (handleQuizFinish true S tid))[j]? =
      ((flatTopics S)[j]?).map fun t =>
        { t with
          isCompleted := if j = i then true else t.isCompleted
          isLocked := if j = i + 1 then false else t.isLocked } := by
  obtain ⟨hi', hid⟩ := List.getElem?_eq_some_iff.mp htid
  have hi : i < (flatTopics S).length := by simpa using hi'
  have hidv : (flatTopics S)[i].id = tid := by
    simpa [List.getElem_map] using hid
  have hfind : jsFindIndex (fun t => t.id == tid) (flatTopics S) = (i : Int) := by
    rw [jsFindIndex, ← hidv, findIdxO_key (flatTopics S) i hi hnd]
  rw [flatTopics_handleQuizFinish_true, List.getElem?_map]
  cases hj : (flatTopics S)[j]? with
  | none => rfl
  | some t =>
      obtain ⟨hjlen, hjt⟩ := List.getElem?_eq_some_iff.mp hj
      subst hjt
      simp only [Option.map_some']
      congr 1
      unfold advanceTopic
      rw [hfind]
      have h1 : ((i : Int) + 1).toNat = i + 1 := by omega
      rw [h1]
      by_cases hji : j = i
      · subst hji
        simp [hidv, show ¬(j = j + 1) by omega]
      · have hcond : ((flatTopics S)[j].id == tid) = false := by
          refine beq_eq_false_iff_ne.mpr fun hEq => ?_
          exact hji (nodup_id_getElem_inj (flatTopics S) hnd hjlen hi (hEq.trans hidv.symm))
        by_cases hnext : i + 1 < (flatTopics S).length
        · rw [List.getElem?_eq_getElem hnext]
          by_cases hji1 : j = i + 1
          · subst hji1
            simp [hcond, hji]
          · have hcond2 : ((flatTopics S)[j].id == (flatTopics S)[i + 1].id) = false := by
              refine beq_eq_false_iff_ne.mpr fun hEq => ?_
              exact hji1 (nodup_id_getElem_inj (flatTopics S) hnd hjlen hnext hEq)
            simp [hcond, hcond2, hji, hji1]
        · rw [List.getElem?_eq_none (by omega)]
          simp [hcond, hji, show ¬(j = i + 1) by omega]

/-- Witness for C2 on the concrete three-topic course, passing the first
topic and observing the second being unlocked. -/
theorem handleQuizFinish_pass_spec_witness :
    ((flatTopics sampleCourse).map Topic.id)[0]? = some "topic-0".toList ∧
    ((flatTopics sampleCourse).map Topic.id).Nodup ∧
    (flatTopics (handleQuizFinish true sampleCourse "topic-0".toList))[1]? =
      ((flatTopics sampleCourse)[1]?).map (fun t =>
        { t with
          isCompleted := if 1 = 0 then true else t.isCompleted
          isLocked := if 1 = 0 + 1 then false else t.isLocked }) :=
  ⟨by decide, by decide,
    handleQuizFinish_pass_spec sampleCourse 0 1 ("topic-0".toList) (by decide) (by decide)⟩

/-- C7: advancing with `passed = false` changes nothing: the course
structure is returned exactly as it was. -/
theorem handleQuizFinish_fail_noop (S : CourseStructure) (tid : List Char) :
    handleQuizFinish false S tid = S := rfl

/-- C10: advancing with `passed = true` and a topic id absent from the
outline marks no topic completed but clears the locked flag of the first
topic in flattened order (`findIndex` yields `-1`, so index `0` is treated
as the next topic). -/
theorem handleQuizFinish_missing_id (S : CourseStructure) (tid : List Char) (j : Nat)
    (habs : ∀ t ∈ flatTopics S, (t.id == tid) = false)
    (hnd : ((flatTopics S).map Topic.id).Nodup) :
    (flatTopics (handleQuizFinish true S tid))[j]? =
      ((flatTopics S)[j]?).map fun t =>
        { t with isLocked := if j = 0 then false else t.isLocked } := by
  have hfind : jsFindIndex (fun t => t.id == tid) (flatTopics S) = -1 := by
    rw [jsFindIndex, findIdxO_eq_none _ _ habs]
  rw [flatTopics_handleQuizFinish_true, List.getElem?_map]
  cases hj : (flatTopics S)[j]? with
  | none => rfl
  | some t =>
      obtain ⟨hjlen, hjt⟩ := List.getElem?_eq_some_iff.mp hj
      subst hjt
      simp only [Option.map_some']
      congr 1
      unfold advanceTopic
      rw [hfind]
      have h1 : ((-1 : Int) + 1).toNat = 0 := by decide
      rw [h1]
      have hcond := habs ((flatTopics S)[j]) (List.getElem_mem hjlen)
      have h0len : 0 < (flatTopics S).length := by omega
      rw [List.getElem?_eq_getElem h0len]
      by_cases hj0 : j = 0
      · subst hj0
        simp [hcond]
      · have hcond2 : ((flatTopics S)[j].id == (flatTopics S)[0].id) = false := by
          refine beq_eq_false_iff_ne.mpr fun hEq => ?_
          exact hj0 (nodup_id_getElem_inj (flatTopics S) hnd hjlen h0len hEq)
        simp [hcond, hcond2, hj0]

/-- Witness for C10 on the concrete course with an id that occurs nowhere:
the first (already unlocked) topic is the one whose locked flag is set to
false, and position 1 is untouched. -/
theorem handleQuizFinish_missing_id_witness :
    (∀ t ∈ flatTopics sampleCourse, (t.id == "nope".toList) = false) ∧
    ((flatTopics sampleCourse).map Topic.id).Nodup ∧
    (flatTopics (handleQuizFinish true sampleCourse "nope".toList))[0]? =
      ((flatTopics sampleCourse)[0]?).map (fun t =>
        { t with isLocked := if 0 = 0 then false else t.isLocked }) :=
  ⟨by decide, by decide,
    handleQuizFinish_missing_id sampleCourse ("nope".toList) 0 (by decide) (by decide)⟩

/-! ### Characterising the outline produced by `analyzePdfStructure` -/

/-- Whether the first raw chapter exists and has at least one topic — the
condition under which some topic receives `cIdx === 0 && tIdx === 0`. -/
def firstHasTopic : List RawChapter → Bool
  | [] => false
  | ch :: _ => !ch.topics.isEmpty

theorem rawFlat_cons (ch : RawChapter) (rest : List RawChapter) :
    rawFlat (ch :: rest) = ch.topics ++ rawFlat rest := rfl

theorem mkTopics_length (ts : List RawTopic) (k c ti : Nat) :
    (mkTopics k c ti ts).length = ts.length := by
  induction ts generalizing k ti with
  | nil => rfl
  | cons t ts ih => simp [mkTopics, ih]

theorem mkTopics_getElem? (ts : List RawTopic) (k c ti j : Nat) :
    (mkTopics k c ti ts)[j]? = (ts[j]?).map fun rt =>
      { id := topicId (k + j), title := rt.title, description := rt.description,
        isCompleted := false, isLocked := !(c == 0 && (ti + j) == 0) } := by
  induction ts generalizing k ti j with
  | nil => simp [mkTopics]
  | cons t ts ih =>
      cases j with
      | zero => simp [mkTopics]
      | succ j =>
          simp only [mkTopics, List.getElem?_cons_succ]
          rw [ih (k + 1) (ti + 1) j]
          have h1 : k + 1 + j = k + (j + 1) := by omega
          have h2 : ti + 1 + j = ti + (j + 1) := by omega
          rw [h1, h2]

theorem flat_mkChapters_length (chs : List RawChapter) (k c : Nat) :
    ((mkChapters k c chs).flatMap fun ch => ch.topics).length = (rawFlat chs).length := by
  induction chs generalizing k c with
  | nil => rfl
  | cons ch rest ih =>
      simp [mkChapters, rawFlat_cons, mkTopics_length, ih, List.flatMap_cons]

theorem flat_mkChapters_pos (chs : List RawChapter) :
    ∀ k c j : Nat, c ≠ 0 →
      ((mkChapters k c chs).flatMap fun ch => ch.topics)[j]? =
        ((rawFlat chs)[j]?).map fun rt =>
          { id := topicId (k + j), title := rt.title, description := rt.description,
            isCompleted := false, isLocked := true } := by
  induction chs with
  | nil => intro k c j hc; simp [mkChapters, rawFlat]
  | cons ch rest ih =>
      intro k c j hc
      simp only [mkChapters, List.flatMap_cons]
      rw [rawFlat_cons, List.getElem?_append, List.getElem?_append, mkTopics_length]
      by_cases hj : j < ch.topics.length
      · simp only [if_pos hj, mkTopics_getElem?]
        have hc0 : (c == 0) = false := by simpa using hc
        simp [hc0]
      · simp only [if_neg hj]
        rw [ih (k + ch.topics.length) (c + 1) (j - ch.topics.length) (by omega)]
        have h1 : k + ch.topics.length + (j - ch.topics.length) = k + j := by omega
        rw [h1]

theorem flat_mkChapters_zero (chs : List RawChapter) (k j : Nat) :
    ((mkChapters k 0 chs).flatMap fun ch => ch.topics)[j]? =
      ((rawFlat chs)[j]?).map fun rt =>
        { id := topicId (k + j), title := rt.title, description := rt.description,
          isCompleted := false, isLocked := !((j == 0) && firstHasTopic chs) } := by
  cases chs with
  | nil => simp [mkChapters, rawFlat]
  | cons ch rest =>
      simp only [mkChapters, List.flatMap_cons]
      rw [rawFlat_cons, List.getElem?_append, List.getElem?_append, mkTopics_length]
      by_cases hj : j < ch.topics.length
      · simp only [if_pos hj, mkTopics_getElem?]
        have hne : ch.topics.isEmpty = false := by
          cases htop : ch.topics with
          | nil => rw [htop] at hj; simp at hj
          | cons a l => simp
        simp [firstHasTopic, hne]
      · simp only [if_neg hj]
        rw [flat_mkChapters_pos rest (k + ch.topics.length) 1 (j - ch.topics.length)
          (by omega)]
        have h1 : k + ch.topics.length + (j - ch.topics.length) = k + j := by omega
        rw [h1]
        cases hx : (rawFlat rest)[j - ch.topics.length]? with
        | none => rfl
        | some rt =>
            simp only [Option.map_some']
            have hb : ((j == 0) && firstHasTopic (ch :: rest)) = false := by
              cases htop : ch.topics with
              | nil => simp [firstHasTopic, htop]
              | cons a l =>
                  have hj0 : (j == 0) = false := by
                    have : j ≠ 0 := by rw [htop] at hj; simp at hj; omega
                    simpa using this
                  simp [hj0]
            simp [hb]

theorem mkChapters_id (chs : List RawChapter) (k c j : Nat) :
    ((mkChapters k c chs)[j]?).map Chapter.id =
      (chs[j]?).map fun _ => chapterId (c + j) := by
  induction chs generalizing k c j with
  | nil => simp [mkChapters]
  | cons ch rest ih =>
      cases j with
      | zero => simp [mkChapters]
      | succ j =>
          simp only [mkChapters, List.getElem?_cons_succ]
          rw [ih (k + ch.topics.length) (c + 1) j]
          have h1 : c + 1 + j = c + (j + 1) := by omega
          rw [h1]

theorem list_eq_range_map (l : List (List Char)) (f : Nat → List Char)
    (h : ∀ j, j < l.length → l[j]? = some (f j)) :
    l = (List.range l.length).map f := by
  refine List.ext_getElem? fun j => ?_
  by_cases hj : j < l.length
  · rw [h j hj, List.getElem?_map, List.getElem?_range hj]
    rfl
  · rw [List.getElem?_eq_none (by omega), List.getElem?_eq_none (by simp; omega)]

theorem filter_unlock_one (F : List Topic) (hne : 0 < F.length)
    (h : ∀ j, j < F.length → (F[j]?).map Topic.isLocked = some (!(j == 0))) :
    (F.filter fun t => !t.isLocked).length = 1 := by
  cases F with
  | nil => simp at hne
  | cons a F =>
      have ha : a.isLocked = false := by
        have h0 := h 0 (by simp)
        simpa using h0
      have hrest : ∀ t ∈ F, t.isLocked = true := by
        intro t ht
        obtain ⟨j, hj, rfl⟩ := List.mem_iff_getElem.mp ht
        have hs := h (j + 1) (by simp; omega)
        rw [List.getElem?_cons_succ, List.getElem?_eq_getElem hj] at hs
        simpa using hs
      have hfil : F.filter (fun t => !t.isLocked) = [] := by
        rw [List.filter_eq_nil_iff]
        intro t ht
        simp [hrest t ht]
      simp [List.filter_cons, ha, hfil]

theorem all_not_completed (F : List Topic)
    (h : ∀ j, j < F.length → (F[j]?).map Topic.isCompleted = some false) :
    (F.all fun t => !t.isCompleted) = true := by
  rw [List.all_eq_true]
  intro t ht
  obtain ⟨j, hj, rfl⟩ := List.mem_iff_getElem.mp ht
  have hs := h j hj
  rw [List.getElem?_eq_getElem hj] at hs
  simpa using hs

theorem mkChapters_length (chs : List RawChapter) (k c : Nat) :
    (mkChapters k c chs).length = chs.length := by
  induction chs generalizing k c with
  | nil => rfl
  | cons ch rest ih => simp [mkChapters, ih]

/-- C3, amended: provided the first chapter of the accepted response has at
least one topic, the outline built by `analyzePdfStructure` has as many
flattened topics as the response, topic `j` carries id `topic-j`, is not
completed and is locked exactly when `j ≠ 0`; chapter `c` carries id `ch-c`;
all topic ids and all chapter ids are unique; exactly one topic is unlocked,
namely the flattened head, which is the first topic of the first chapter;
and no topic is completed. -/
theorem analyzePdfStructure_spec (raw : RawCourse) (j c : Nat)
    (hfirst : firstHasTopic raw.chapters = true) :
    (flatTopics (analyzePdfStructure raw)).length = (rawFlat raw.chapters).length ∧
    (flatTopics (analyzePdfStructure raw))[j]? =
      ((rawFlat raw.chapters)[j]?).map (fun rt =>
        { id := topicId j, title := rt.title, description := rt.description,
          isCompleted := false, isLocked := !(j == 0) }) ∧
    ((analyzePdfStructure raw).chapters[c]?).map Chapter.id =
      ((raw.chapters[c]?).map fun _ => chapterId c) ∧
    ((flatTopics (analyzePdfStructure raw)).map Topic.id).Nodup ∧
    ((analyzePdfStructure raw).chapters.map Chapter.id).Nodup ∧
    ((flatTopics (analyzePdfStructure raw)).filter fun t => !t.isLocked).length = 1 ∧
    ((flatTopics (analyzePdfStructure raw)).all fun t => !t.isCompleted) = true ∧
    ((flatTopics (analyzePdfStructure raw))[0]?).map Topic.isLocked = some false ∧
    (flatTopics (analyzePdfStructure raw))[0]? =
      ((analyzePdfStructure raw).chapters[0]?).bind fun ch => ch.topics[0]? := by
  have hflat : flatTopics (analyzePdfStructure raw) =
      (mkChapters 0 0 raw.chapters).flatMap fun ch => ch.topics := rfl
  have hchar : ∀ j' : Nat,
      (flatTopics (analyzePdfStructure raw))[j']? =
        ((rawFlat raw.chapters)[j']?).map fun rt =>
          { id := topicId j', title := rt.title, description := rt.description,
            isCompleted := false, isLocked := !(j' == 0) } := by
    intro j'
    rw [hflat, flat_mkChapters_zero raw.chapters 0 j']
    simp [hfirst]
  have hlen : (flatTopics (analyzePdfStructure raw)).length =
      (rawFlat raw.chapters).length := by
    rw [hflat]; exact flat_mkChapters_length raw.chapters 0 0
  obtain ⟨ch, rest, hc0, t, ts, htop⟩ :
      ∃ ch rest, raw.chapters = ch :: rest ∧ ∃ t ts, ch.topics = t :: ts := by
    cases hchs : raw.chapters with
    | nil => rw [hchs] at hfirst; simp [firstHasTopic] at hfirst
    | cons ch rest =>
        rw [hchs] at hfirst
        simp only [firstHasTopic] at hfirst
        cases htop : ch.topics with
        | nil => rw [htop] at hfirst; simp at hfirst
        | cons t ts => exact ⟨ch, rest, rfl, t, ts, htop⟩
  have hN : 0 < (rawFlat raw.chapters).length := by
    rw [hc0, rawFlat_cons, htop]; simp
  have hlock : ∀ j', j' < (flatTopics (analyzePdfStructure raw)).length →
      ((flatTopics (analyzePdfStructure raw))[j']?).map Topic.isLocked =
        some (!(j' == 0)) := by
    intro j' hj'
    rw [hchar j', List.getElem?_eq_getElem (by omega)]
    simp
  have hcomp : ∀ j', j' < (flatTopics (analyzePdfStructure raw)).length →
      ((flatTopics (analyzePdfStructure raw))[j']?).map Topic.isCompleted =
        some false := by
    intro j' hj'
    rw [hchar j', List.getElem?_eq_getElem (by omega)]
    simp
  have hids : ∀ j', j' < ((flatTopics (analyzePdfStructure raw)).map Topic.id).length →
      ((flatTopics (analyzePdfStructure raw)).map Topic.id)[j']? = some (topicId j') := by
    intro j' hj'
    have hj'' : j' < (flatTopics (analyzePdfStructure raw)).length := by simpa using hj'
    rw [List.getElem?_map, hchar j', List.getElem?_eq_getElem (by omega)]
    simp
  have hcl : (analyzePdfStructure raw).chapters.length = raw.chapters.length :=
    mkChapters_length raw.chapters 0 0
  have hcids : ∀ c', c' < ((analyzePdfStructure raw).chapters.map Chapter.id).length →
      ((analyzePdfStructure raw).chapters.map Chapter.id)[c']? = some (chapterId c') := by
    intro c' hc'
    have hc'' : c' < raw.chapters.length := by
      simpa [hcl] using hc'
    rw [List.getElem?_map]
    have := mkChapters_id raw.chapters 0 0 c'
    simp only [Nat.zero_add] at this
    show ((mkChapters 0 0 raw.chapters)[c']?).map Chapter.id = _
    rw [this, List.getElem?_eq_getElem hc'']
    simp
  refine ⟨hlen, hchar j, ?_, ?_, ?_, ?_, ?_, ?_, ?_⟩
  · have := mkChapters_id raw.chapters 0 0 c
    simpa using this
  · rw [list_eq_range_map _ topicId hids]
    exact List.Nodup.map (fun a b h => topicId_inj h) (List.nodup_range _)
  · rw [list_eq_range_map _ chapterId hcids]
    exact List.Nodup.map (fun a b h => chapterId_inj h) (List.nodup_range _)
  · exact filter_unlock_one _ (by omega) hlock
  · exact all_not_completed _ (fun j' hj' => hcomp j' hj')
  · have := hlock 0 (by omega)
    simpa using this
  · have h9 : analyzePdfStructure raw =
        { title := raw.title, summary := raw.summary,
          chapters := mkChapters 0 0 raw.chapters } := rfl
    rw [h9, hc0]
    simp [flatTopics, mkChapters, htop, mkTopics, List.flatMap_cons]

/-- A raw response whose first chapter is empty while a later chapter has a
topic: the flattened outline is nonempty, yet no topic is unlocked. -/
def emptyFirstChapterRaw : RawCourse :=
  { title := "t".toList
    summary := "s".toList
    chapters :=
      [ { title := "c0".toList, topics := [] },
        { title := "c1".toList,
          topics := [ { title := "x".toList, description := "d".toList } ] } ] }

/-- C3 counterexample: an accepted response with flattened topic count
`N = 1 ≥ 1` for which the outline has zero unlocked topics — the claim's
"exactly one unlocked topic" fails when the first chapter has no topics. -/
theorem analyzePdfStructure_counterexample :
    1 ≤ (flatTopics (analyzePdfStructure emptyFirstChapterRaw)).length ∧
    ((flatTopics (analyzePdfStructure emptyFirstChapterRaw)).filter
      fun t => !t.isLocked).length = 0 := by
  decide

/-- A two-chapter raw response with a nonempty first chapter. -/
def sampleRaw : RawCourse :=
  { title := "T".toList
    summary := "S".toList
    chapters :=
      [ { title := "A".toList
          topics := [ { title := "t0".toList, description := "d0".toList },
                      { title := "t1".toList, description := "d1".toList } ] },
        { title := "B".toList
          topics := [ { title := "t2".toList, description := "d2".toList } ] } ] }

/-- Witness for the amended C3 on a concrete response, at flattened position
`j = 1` and chapter position `c = 1`. -/
theorem analyzePdfStructure_spec_witness :
    firstHasTopic sampleRaw.chapters = true ∧
    ((flatTopics (analyzePdfStructure sampleRaw)).filter
      fun t => !t.isLocked).length = 1 ∧
    (flatTopics (analyzePdfStructure sampleRaw))[1]? =
      ((rawFlat sampleRaw.chapters)[1]?).map (fun rt =>
        { id := topicId 1, title := rt.title, description := rt.description,
          isCompleted := false, isLocked := !((1 : Nat) == 0) }) ∧
    ((analyzePdfStructure sampleRaw).chapters[1]?).map Chapter.id =
      ((sampleRaw.chapters[1]?).map fun _ => chapterId 1) :=
  ⟨by decide,
    (analyzePdfStructure_spec sampleRaw 1 1 (by decide)).2.2.2.2.2.1,
    (analyzePdfStructure_spec sampleRaw 1 1 (by decide)).2.1,
    (analyzePdfStructure_spec sampleRaw 1 1 (by decide)).2.2.1⟩

/-! ### `withRetry` (src/services/geminiService.ts)

A JS error value carries an optional `message` string and an optional
numeric `status`.  An asynchronous operation that may be re-invoked is
embedded as a function from the attempt number to an `Except` outcome; the
wrapper additionally returns the list of delays slept before retries. -/

/-- A JS error: optional `message`, optional `status`. -/
structure Err where
  message : Option (List Char)
  status : Option Nat
deriving DecidableEq

/-- Whether the first list is a prefix of the second (Boolean). -/
def hasPrefixOf : List Char → List Char → Bool
  | [], _ => true
  | _ :: _, [] => false
  | a :: as, b :: bs => a == b && hasPrefixOf as bs

/-- JS `String.prototype.includes`: substring containment. -/
def containsSeq (needle : List Char) : List Char → Bool
  | [] => needle.isEmpty
  | c :: rest => hasPrefixOf needle (c :: rest) || containsSeq needle rest

/-- `error.message?.includes(s)` — `false` when `message` is absent. -/
def msgHas (e : Err) (s : List Char) : Bool :=
  match e.message with
  | some m => containsSeq s m
  | none => false

/-- `error.message?.includes('xhr') || ...('fetch') || ...('NetworkError')`. -/
def isNetworkError (e : Err) : Bool :=
  msgHas e "xhr".toList || msgHas e "fetch".toList || msgHas e "NetworkError".toList

/-- `error.status === 503 || error.status === 500`. -/
def isServerError (e : Err) : Bool :=
  e.status == some 503 || e.status == some 500

/-- The class of failures `withRetry` retries. -/
def isTransient (e : Err) : Bool := isNetworkError e || isServerError e

/-- `withRetry(operation, retries = 2, delay = 1000)`: run the operation; on
a network-class or 5xx-class failure with retries left, sleep `delay` and
recurse with `retries - 1` and `delay * 2`; otherwise rethrow.  The second
component records the delays slept, in order. -/
def withRetry {α : Type} (op : Nat → Except Err α) (attempt retries delay : Nat) :
    Except Err α × List Nat :=
  match op attempt with
  | .ok v => (.ok v, [])
  | .error e =>
      if decide (0 < retries) && (isNetworkError e || isServerError e) then
        match retries with
        | 0 => (.error e, [])
        | r + 1 =>
            let p := withRetry op (attempt + 1) r (delay * 2)
            (p.1, delay :: p.2)
      else (.error e, [])

/-- C4: with the default budget (`retries = 2`, `delay = 1000`), an
operation failing twice with transient errors then succeeding yields the
success value after exactly two retries with delays 1000 and 2000; a
non-transient failure is propagated unchanged with zero retries; and when
the budget is exhausted the last error is propagated unchanged after the
two retries. -/
theorem withRetry_spec {α : Type} (op1 op2 op3 : Nat → Except Err α)
    (e0 e1 f g0 g1 g2 : Err) (v : α)
    (h10 : op1 0 = .error e0) (h1t0 : isTransient e0 = true)
    (h11 : op1 1 = .error e1) (h1t1 : isTransient e1 = true)
    (h12 : op1 2 = .ok v)
    (h20 : op2 0 = .error f) (h2t : isTransient f = false)
    (h30 : op3 0 = .error g0) (h3t0 : isTransient g0 = true)
    (h31 : op3 1 = .error g1) (h3t1 : isTransient g1 = true)
    (h32 : op3 2 = .error g2) :
    withRetry op1 0 2 1000 = (.ok v, [1000, 2000]) ∧
    withRetry op2 0 2 1000 = (.error f, []) ∧
    withRetry op3 0 2 1000 = (.error g2, [1000, 2000]) := by
  simp only [isTransient] at h1t0 h1t1 h2t h3t0 h3t1
  refine ⟨?_, ?_, ?_⟩
  · rw [withRetry, h10]
    simp only [h1t0, Bool.and_true, decide_eq_true_eq]
    rw [if_pos (by decide)]
    rw [withRetry, h11]
    simp only [h1t1, Bool.and_true, decide_eq_true_eq]
    rw [if_pos (by decide)]
    rw [withRetry, h12]
  · rw [withRetry, h20]
    simp [h2t]
  · rw [withRetry, h30]
    simp only [h3t0, Bool.and_true, decide_eq_true_eq]
    rw [if_pos (by decide)]
    rw [withRetry, h31]
    simp only [h3t1, Bool.and_true, decide_eq_true_eq]
    rw [if_pos (by decide)]
    rw [withRetry, h32]
    simp

/-- Concrete transient transport error (message mentions `xhr`). -/
def xhrErr : Err := { message := some "Rpc failed due to xhr error".toList, status := none }

/-- Concrete transient server error (status 503). -/
def srvErr : Err := { message := none, status := some 503 }

/-- Concrete non-transient content error. -/
def pagesErr : Err :=
  { message := some "document has no pages".toList, status := some 400 }

/-- Concrete transient network error (message mentions `fetch`). -/
def fetchErr : Err := { message := some "fetch failed".toList, status := none }

/-- Operation failing transiently twice, then succeeding. -/
def wOp1 : Nat → Except Err Nat := fun n =>
  if n = 0 then .error xhrErr else if n = 1 then .error srvErr else .ok 42

/-- Operation always failing with a non-transient error. -/
def wOp2 : Nat → Except Err Nat := fun _ => .error pagesErr

/-- Operation always failing transiently. -/
def wOp3 : Nat → Except Err Nat := fun _ => .error fetchErr

/-- Witness for C4 on concrete operations and errors. -/
theorem withRetry_spec_witness :
    isTransient xhrErr = true ∧ isTransient srvErr = true ∧
    isTransient pagesErr = false ∧ isTransient fetchErr = true ∧
    withRetry wOp1 0 2 1000 = (.ok 42, [1000, 2000]) ∧
    withRetry wOp2 0 2 1000 = (.error pagesErr, []) ∧
    withRetry wOp3 0 2 1000 = (.error fetchErr, [1000, 2000]) :=
  ⟨by decide, by decide, by decide, by decide,
    (withRetry_spec wOp1 wOp2 wOp3 xhrErr srvErr pagesErr fetchErr fetchErr fetchErr 42
      rfl (by decide) rfl (by decide) rfl rfl (by decide) rfl (by decide) rfl
      (by decide) rfl).1,
    (withRetry_spec wOp1 wOp2 wOp3 xhrErr srvErr pagesErr fetchErr fetchErr fetchErr 42
      rfl (by decide) rfl (by decide) rfl rfl (by decide) rfl (by decide) rfl
      (by decide) rfl).2.1,
    (withRetry_spec wOp1 wOp2 wOp3 xhrErr srvErr pagesErr fetchErr fetchErr fetchErr 42
      rfl (by decide) rfl (by decide) rfl rfl (by decide) rfl (by decide) rfl
      (by decide) rfl).2.2⟩

/-! ### `analyzePdfStructure` failure translation (src/services/geminiService.ts)

The operation passed to `withRetry` catches service failures and, before the
retry classification ever sees them, rethrows translated errors for
no-pages/400 (unreadable document) and for xhr/"Rpc failed"/500 (file too
large). -/

/-- The "too large" user-facing message thrown by `analyzePdfStructure`. -/
def tooLargeMsg : List Char :=
  ("The PDF file is too large for the browser to process directly. " ++
    "Please try a smaller PDF (under 4MB) or compress it.").toList

/-- The "unreadable" user-facing message thrown by `analyzePdfStructure`. -/
def unreadableMsg : List Char :=
  "The PDF appears to be empty, encrypted, or corrupted. Please try a different file.".toList

/-- The catch block of `analyzePdfStructure`: translate no-pages/400 errors
to the unreadable message, xhr/"Rpc failed"/500 errors to the too-large
message, and rethrow anything else unchanged.  A thrown `new Error(msg)`
has no `status`. -/
def translateAnalysisError (e : Err) : Err :=
  if msgHas e "document has no pages".toList || e.status == some 400 then
    { message := some unreadableMsg, status := none }
  else if msgHas e "xhr".toList || msgHas e "Rpc failed".toList || e.status == some 500 then
    { message := some tooLargeMsg, status := none }
  else e

/-- `analyzePdfStructure` as a whole: the service call with its catch-block
translation, wrapped in `withRetry` with the default budget; on success the
raw response is post-processed into the id-annotated outline. -/
def analyzePdfStructureRun (service : Nat → Except Err RawCourse) :
    Except Err CourseStructure × List Nat :=
  withRetry (fun attempt =>
    match service attempt with
    | .ok raw => .ok (analyzePdfStructure raw)
    | .error e => .error (translateAnalysisError e)) 0 2 1000

/-- C6 counterexample: a transport-layer failure (message `"Rpc failed due
to xhr error"`, transient by the code's own classification) is translated
to the too-large message inside the retried operation, so `withRetry` sees
a non-transient error and performs zero retries — the claim that transport
failures are retried up to the budget fails. -/
theorem analyzePdfStructure_retry_counterexample :
    isTransient xhrErr = true ∧
    analyzePdfStructureRun (fun _ => .error xhrErr) =
      (.error { message := some tooLargeMsg, status := none }, []) := by
  constructor
  · decide
  · rw [analyzePdfStructureRun, withRetry]
    simp only []
    have h1 : translateAnalysisError xhrErr =
        { message := some tooLargeMsg, status := none } := by decide
    have h2 : isNetworkError { message := some tooLargeMsg, status := none } = false := by
      decide
    have h3 : isServerError { message := some tooLargeMsg, status := none } = false := by
      decide
    simp [h1, h2, h3]

/-- C6, amended: transient failures that the catch block leaves untouched
(e.g. status 503, or messages mentioning `fetch`/`NetworkError`) are
retried up to the budget; failures the catch block translates — xhr or
"Rpc failed" messages and status 500 — surface immediately as the
too-large message with zero retries; no-pages/400 content failures surface
immediately as the unreadable message with zero retries; and the two
user-facing messages are distinct. -/
theorem analyzePdfStructure_errors_spec
    (svc1 svc2 svc3 : Nat → Except Err RawCourse) (e f g : Err) (raw : RawCourse)
    (h1a : svc1 0 = .error e) (h1b : svc1 1 = .error e) (h1c : svc1 2 = .ok raw)
    (h1keep : translateAnalysisError e = e) (h1tr : isTransient e = true)
    (h2a : svc2 0 = .error f)
    (h2content : (msgHas f "document has no pages".toList || f.status == some 400) = false)
    (h2size : (msgHas f "xhr".toList || msgHas f "Rpc failed".toList ||
      f.status == some 500) = true)
    (h3a : svc3 0 = .error g)
    (h3content : (msgHas g "document has no pages".toList || g.status == some 400) = true) :
    analyzePdfStructureRun svc1 = (.ok (analyzePdfStructure raw), [1000, 2000]) ∧
    analyzePdfStructureRun svc2 =
      (.error { message := some tooLargeMsg, status := none }, []) ∧
    analyzePdfStructureRun svc3 =
      (.error { message := some unreadableMsg, status := none }, []) ∧
    tooLargeMsg ≠ unreadableMsg := by
  simp only [isTransient] at h1tr
  simp at h2content h2size h3content
  refine ⟨?_, ?_, ?_, by decide⟩
  · rw [analyzePdfStructureRun, withRetry]
    simp only [h1a, h1keep]
    simp only [h1tr, Bool.and_true, decide_eq_true_eq]
    rw [if_pos (by decide)]
    rw [withRetry]
    simp only [h1b, h1keep]
    simp only [h1tr, Bool.and_true, decide_eq_true_eq]
    rw [if_pos (by decide)]
    rw [withRetry]
    simp only [h1c]
  · have hf : translateAnalysisError f = { message := some tooLargeMsg, status := none } := by
      rw [translateAnalysisError, if_neg (by simp [h2content]), if_pos (by simp [h2size])]
    rw [analyzePdfStructureRun, withRetry]
    simp only [h2a, hf]
    have h2 : isNetworkError { message := some tooLargeMsg, status := none } = false := by
      decide
    have h3 : isServerError { message := some tooLargeMsg, status := none } = false := by
      decide
    simp [h2, h3]
  · have hg : translateAnalysisError g =
        { message := some unreadableMsg, status := none } := by
      rw [translateAnalysisError, if_pos (by simp [h3content])]
    rw [analyzePdfStructureRun, withRetry]
    simp only [h3a, hg]
    have h2 : isNetworkError { message := some unreadableMsg, status := none } = false := by
      decide
    have h3 : isServerError { message := some unreadableMsg, status := none } = false := by
      decide
    simp [h2, h3]

/-- Service failing twice with a 503, then succeeding. -/
def aSvc1 : Nat → Except Err RawCourse := fun n =>
  if n ≤ 1 then .error srvErr else .ok sampleRaw

/-- Service failing with the xhr transport error. -/
def aSvc2 : Nat → Except Err RawCourse := fun _ => .error xhrErr

/-- Service failing with the no-pages content error. -/
def aSvc3 : Nat → Except Err RawCourse := fun _ => .error pagesErr

/-- Witness for the amended C6 on concrete services and errors. -/
theorem analyzePdfStructure_errors_spec_witness :
    translateAnalysisError srvErr = srvErr ∧ isTransient srvErr = true ∧
    (msgHas pagesErr "document has no pages".toList || pagesErr.status == some 400) = true ∧
    analyzePdfStructureRun aSvc1 = (.ok (analyzePdfStructure sampleRaw), [1000, 2000]) ∧
    analyzePdfStructureRun aSvc2 =
      (.error { message := some tooLargeMsg, status := none }, []) ∧
    analyzePdfStructureRun aSvc3 =
      (.error { message := some unreadableMsg, status := none }, []) :=
  ⟨by decide, by decide, by decide,
    (analyzePdfStructure_errors_spec aSvc1 aSvc2 aSvc3 srvErr xhrErr pagesErr sampleRaw
      rfl rfl rfl (by decide) (by decide) rfl (by decide) (by decide) rfl (by decide)).1,
    (analyzePdfStructure_errors_spec aSvc1 aSvc2 aSvc3 srvErr xhrErr pagesErr sampleRaw
      rfl rfl rfl (by decide) (by decide) rfl (by decide) (by decide) rfl (by decide)).2.1,
    (analyzePdfStructure_errors_spec aSvc1 aSvc2 aSvc3 srvErr xhrErr pagesErr sampleRaw
      rfl rfl rfl (by decide) (by decide) rfl (by decide) (by decide) rfl (by decide)).2.2.1⟩

/-! ### `generateLessonImage` (src/services/geminiService.ts) -/

/-- An inline media payload of a response part. -/
structure InlineData where
  mimeType : List Char
  data : List Char
deriving DecidableEq

/-- A response part: it may or may not carry inline data. -/
structure Part where
  inlineData : Option InlineData
deriving DecidableEq

/-- The fixed neutral placeholder resource. -/
def placeholderUrl : List Char :=
  "https://picsum.photos/800/450?grayscale&blur=2".toList

/-- `` `data:${part.inlineData.mimeType};base64,${part.inlineData.data}` `` -/
def dataUri (d : InlineData) : List Char :=
  "data:".toList ++ d.mimeType ++ ";base64,".toList ++ d.data

/-- The `for (const part of parts)` loop: first part with inline data. -/
def firstInline : List Part → Option InlineData
  | [] => none
  | p :: ps =>
      match p.inlineData with
      | some d => some d
      | none => firstInline ps

/-- `generateLessonImage`: on a failed call the catch block returns the
placeholder; on success the first inline part becomes a data URI, and if no
part has inline data the placeholder is returned.  The embedding is a total
function — every outcome yields a resource string, never an exception. -/
def generateLessonImage (result : Except Err (List Part)) : List Char :=
  match result with
  | .error _ => placeholderUrl
  | .ok parts =>
      match firstInline parts with
      | some d => dataUri d
      | none => placeholderUrl

/-- C8: `generateLessonImage` never raises — it is total, returning the
fixed placeholder on any failure or absence of inline image data, and a
data URI built from the first inline part otherwise. -/
theorem generateLessonImage_spec (result : Except Err (List Part)) :
    (∀ e, result = .error e → generateLessonImage result = placeholderUrl) ∧
    (∀ parts, result = .ok parts → firstInline parts = none →
      generateLessonImage result = placeholderUrl) ∧
    (∀ parts d, result = .ok parts → firstInline parts = some d →
      generateLessonImage result = dataUri d) := by
  refine ⟨?_, ?_, ?_⟩
  · rintro e rfl
    rfl
  · rintro parts rfl hnone
    simp [generateLessonImage, hnone]
  · rintro parts d rfl hsome
    simp [generateLessonImage, hsome]

/-- A part with no inline data followed by an image part. -/
def sampleParts : List Part :=
  [ { inlineData := none },
    { inlineData := some { mimeType := "image/png".toList, data := "QUJD".toList } } ]

/-- Witness for C8: a failed call yields the placeholder; a response whose
second part is the first inline one yields its data URI. -/
theorem generateLessonImage_spec_witness :
    generateLessonImage (.error pagesErr) = placeholderUrl ∧
    firstInline sampleParts =
      some { mimeType := "image/png".toList, data := "QUJD".toList } ∧
    generateLessonImage (.ok sampleParts) =
      dataUri { mimeType := "image/png".toList, data := "QUJD".toList } :=
  ⟨(generateLessonImage_spec (.error pagesErr)).1 pagesErr rfl,
    by decide,
    (generateLessonImage_spec (.ok sampleParts)).2.2 sampleParts
      { mimeType := "image/png".toList, data := "QUJD".toList } rfl (by decide)⟩

/-! ### Transcript highlighting (src/components/LessonPlayer.tsx)

`transcriptData` splits the script on `'\n'`, keeps paragraphs with content
after trimming, splits each paragraph on whitespace runs keeping nonempty
words, and accumulates a global word index space; `currentWordIndex` is
`Math.floor((progress / 100) * totalWords)` where `progress` is the stored
percentage. -/

/-- Split a character list at every separator character, keeping empty
segments, as JS `String.prototype.split` does. -/
def splitOnPred (p : Char → Bool) (l : List Char) : List (List Char) :=
  l.foldr
    (fun c acc =>
      if p c then [] :: acc
      else (c :: acc.headD []) :: acc.tail)
    [[]]

/-- `script.split('\n').filter(p => p.trim())` followed by
`text.split(/\s+/).filter(w => w.length > 0)` per paragraph.  Splitting on
every whitespace character and dropping empty pieces coincides with
splitting on whitespace runs. -/
def transcriptParagraphs (script : List Char) : List (List (List Char)) :=
  ((splitOnPred (fun c => c == '\n') script).filter
      fun p => p.any fun c => !c.isWhitespace).map
    fun text => (splitOnPred Char.isWhitespace text).filter fun w => w.length > 0

/-- `totalWords`: the accumulated word count over all paragraphs. -/
def transcriptTotalWords (script : List Char) : Nat :=
  ((transcriptParagraphs script).map List.length).sum

/-- The flattened global word sequence (paragraph starts accumulate). -/
def transcriptWords (script : List Char) : List (List Char) :=
  (transcriptParagraphs script).flatten

/-- `currentWordIndex = Math.floor((progress / 100) * totalWords)`. -/
def currentWordIndex (progress : ℚ) (totalWords : Nat) : ℤ :=
  ⌊progress / 100 * totalWords⌋

/-- C5: with playback fraction `p ∈ [0, 1]` (stored as the percentage
`100 * p`), the highlighted index is `⌊p * N⌋`; it is monotone in the
fraction, lies in `[0, N]`, is `0` at `p = 0` and `N` at `p = 1`; and for
the transcript `"Hello world\nSecond line"` the word total is 4, the index
at 50% is 2, and the word at global index 2 is `"Second"`. -/
theorem currentWordIndex_spec (p q : ℚ) (N : Nat)
    (hp0 : 0 ≤ p) (hpq : p ≤ q) (hq1 : q ≤ 1) :
    currentWordIndex (100 * p) N = ⌊p * (N : ℚ)⌋ ∧
    currentWordIndex (100 * p) N ≤ currentWordIndex (100 * q) N ∧
    0 ≤ currentWordIndex (100 * p) N ∧
    currentWordIndex (100 * p) N ≤ (N : ℤ) ∧
    currentWordIndex 0 N = 0 ∧
    currentWordIndex 100 N = (N : ℤ) ∧
    transcriptTotalWords ("Hello world\nSecond line".toList) = 4 ∧
    currentWordIndex 50 4 = 2 ∧
    (transcriptWords ("Hello world\nSecond line".toList))[2]? =
      some ("Second".toList) := by
  have key : ∀ r : ℚ, (100 : ℚ) * r / 100 * N = r * N := by
    intro r; ring
  have hfloor : ∀ r : ℚ, currentWordIndex (100 * r) N = ⌊r * (N : ℚ)⌋ := by
    intro r; rw [currentWordIndex, key r]
  refine ⟨hfloor p, ?_, ?_, ?_, ?_, ?_, by decide, ?_, by decide⟩
  · rw [hfloor p, hfloor q]
    exact Int.floor_le_floor (mul_le_mul_of_nonneg_right hpq (by positivity))
  · rw [hfloor p]
    exact Int.floor_nonneg.mpr (by positivity)
  · rw [hfloor p]
    have hle : p * (N : ℚ) ≤ (N : ℚ) := by
      calc p * (N : ℚ) ≤ 1 * (N : ℚ) :=
            mul_le_mul_of_nonneg_right (hpq.trans hq1) (by positivity)
        _ = (N : ℚ) := one_mul _
    calc ⌊p * (N : ℚ)⌋ ≤ ⌊(N : ℚ)⌋ := Int.floor_le_floor hle
      _ = (N : ℤ) := Int.floor_natCast N
  · rw [currentWordIndex]
    norm_num
  · rw [currentWordIndex]
    rw [show (100 : ℚ) / 100 * N = ((N : ℚ)) by ring]
    exact Int.floor_natCast N
  · rw [currentWordIndex]
    rw [show (50 : ℚ) / 100 * (4 : Nat) = ((2 : Nat) : ℚ) by norm_num]
    rw [Int.floor_natCast]
    norm_num

/-- Witness for C5 at `p = 0`, `q = 1/2`, `N = 4`. -/
theorem currentWordIndex_spec_witness :
    (0 : ℚ) ≤ 0 ∧ (0 : ℚ) ≤ 1 / 2 ∧ (1 / 2 : ℚ) ≤ 1 ∧
    currentWordIndex 50 4 = 2 ∧
    transcriptTotalWords ("Hello world\nSecond line".toList) = 4 ∧
    currentWordIndex 0 4 = 0 :=
  ⟨by norm_num, by norm_num, by norm_num,
    (currentWordIndex_spec 0 (1 / 2) 4 (by norm_num) (by norm_num)
      (by norm_num)).2.2.2.2.2.2.2.1,
    (currentWordIndex_spec 0 (1 / 2) 4 (by norm_num) (by norm_num)
      (by norm_num)).2.2.2.2.2.2.1,
    (currentWordIndex_spec 0 (1 / 2) 4 (by norm_num) (by norm_num)
      (by norm_num)).2.2.2.2.1⟩

/-! ### Quiz pass threshold (src/components/QuizView.tsx)

`const passed = score >= Math.ceil(questions.length * 0.6)`; the JS literal
`0.6` is idealised as the rational `3/5`. -/

/-- The pass signal `QuizView` hands to `onFinish`. -/
def quizPassed (score numQuestions : Nat) : Bool :=
  decide (⌈(numQuestions : ℚ) * 0.6⌉ ≤ (score : ℤ))

/-- C9: the pass signal is `score ≥ ⌈0.6 · n⌉`; for the generated
3-question quiz this means passing exactly when at least 2 answers are
correct. -/
theorem quizPassed_spec (s n : Nat) (hn : 1 ≤ n) :
    (quizPassed s n = true ↔ ⌈(n : ℚ) * 0.6⌉ ≤ (s : ℤ)) ∧
    (quizPassed s 3 = true ↔ 2 ≤ s) := by
  constructor
  · simp [quizPassed]
  · rw [quizPassed]
    have hceil : ⌈(3 : ℚ) * 0.6⌉ = 2 := by
      rw [show ((3 : ℚ) * 0.6) = 9 / 5 by norm_num]
      rw [Int.ceil_eq_iff]
      norm_num
    rw [show ((3 : Nat) : ℚ) = (3 : ℚ) by norm_num, hceil]
    simp

/-- Witness for C9: 2 of 3 passes, 1 of 3 fails. -/
theorem quizPassed_spec_witness :
    1 ≤ 3 ∧ quizPassed 2 3 = true ∧ quizPassed 1 3 = false := by
  refine ⟨by norm_num, ?_, ?_⟩
  · exact (quizPassed_spec 2 3 (by norm_num)).2.mpr (by norm_num)
  · have h := (quizPassed_spec 1 3 (by norm_num)).2
    cases hb : quizPassed 1 3
    · rfl
    · exact absurd (h.mp hb) (by omega)

end Ready2Learn
